import Mathlib

/-!
Shallow embedding of the OnShape server's dimension/unit/metadata pipeline:
`services/bom_service.py`, `services/bom_conversion.py`,
`services/metadata_service.py` and `routes/property_resolver.py`,
together with theorems settling the specification claims about them.

Python values flowing through these functions (JSON-shaped data) are
modelled by the inductive type `PyVal`; Python floats are modelled as
exact rationals (`ℚ`), with `round(x, n)` modelled as decimal rounding
half-to-even (Python's behaviour on decimal ties).  Non-finite floats
(`inf`, `nan`) and underscore digit-group literals are outside the model.
Functions that can raise are modelled with `Option`, where `Option.none`
is the exception path caught by the source's `try/except`.
-/

/-- A Python/JSON value as it appears in the API payloads handled by the
repository: `None`, booleans, numbers (int and float collapsed to `ℚ`),
strings, lists, and string-keyed dicts (modelled as association lists in
insertion order; the payloads have no duplicate keys). -/
inductive PyVal where
  | none : PyVal
  | bool : Bool → PyVal
  | num : ℚ → PyVal
  | str : String → PyVal
  | list : List PyVal → PyVal
  | dict : List (String × PyVal) → PyVal

/-- Python truthiness (`bool(v)`): `None`, `False`, `0`, `""`, `[]`, `{}`
are falsy, everything else truthy. -/
def pyTruthy : PyVal → Bool
  | .none => false
  | .bool b => b
  | .num q => decide (q ≠ 0)
  | .str s => decide (s ≠ "")
  | .list l => !l.isEmpty
  | .dict l => !l.isEmpty

/-- Python `d.get(k, default)` on a string-keyed Python dict. -/
def dictGetD (kvs : List (String × PyVal)) (k : String) (default : PyVal) : PyVal :=
  (List.lookup k kvs).getD default

/-- Python `d.get(k)` on a string-keyed Python dict: missing key gives Python
`None`, which the model writes `PyVal.none`. -/
def dictGet (kvs : List (String × PyVal)) (k : String) : PyVal :=
  (List.lookup k kvs).getD PyVal.none

/-- The whitespace characters stripped by `str.strip()` / skipped by the
regex class `\s` (ASCII subset, which is all that occurs here). -/
def isPySpace (c : Char) : Bool :=
  c = ' ' || c = '\t' || c = '\n' || c = '\r' || c.toNat = 11 || c.toNat = 12

/-- Python `str.strip()`. -/
def stripStr (s : String) : String :=
  String.mk (((s.toList.dropWhile isPySpace).reverse.dropWhile isPySpace).reverse)

/-- Python `str.lower()` (ASCII; the strings involved are ASCII). -/
def lowerStr (s : String) : String :=
  String.mk (s.toList.map Char.toLower)

/-- Numeric value of a digit string. -/
def digitsVal (ds : List Char) : ℕ :=
  ds.foldl (fun n c => 10 * n + (c.toNat - '0'.toNat)) 0

/-- Python `float(s)` on a string: optional surrounding whitespace, an
optional sign, a decimal mantissa with at least one digit and at most one
dot, and an optional integer exponent.  Returns `Option.none` exactly when
`float` raises `ValueError`.  (`inf`/`nan` literals and `_` digit
separators are outside the model.) -/
def pyFloatOfString (s : String) : Option ℚ :=
  let cs0 := (s.toList.dropWhile isPySpace).reverse.dropWhile isPySpace |>.reverse
  let signRest : ℚ × List Char :=
    match cs0 with
    | '+' :: rest => (1, rest)
    | '-' :: rest => (-1, rest)
    | _ => (1, cs0)
  let sign := signRest.1
  let cs := signRest.2
  let ds1 := cs.takeWhile Char.isDigit
  let rest1 := cs.drop ds1.length
  let mant : Option (ℚ × List Char) :=
    match rest1 with
    | '.' :: rest2 =>
      let ds2 := rest2.takeWhile Char.isDigit
      let rest3 := rest2.drop ds2.length
      if ds1.isEmpty && ds2.isEmpty then Option.none
      else Option.some ((digitsVal ds1 : ℚ) + (digitsVal ds2 : ℚ) / (10 : ℚ) ^ ds2.length, rest3)
    | _ => if ds1.isEmpty then Option.none else Option.some ((digitsVal ds1 : ℚ), rest1)
  match mant with
  | Option.none => Option.none
  | Option.some (m, rest) =>
    match rest with
    | [] => Option.some (sign * m)
    | e :: rest4 =>
      if e = 'e' || e = 'E' then
        let esignRest : Bool × List Char :=
          match rest4 with
          | '+' :: r => (true, r)
          | '-' :: r => (false, r)
          | _ => (true, rest4)
        let eds := esignRest.2.takeWhile Char.isDigit
        let rest6 := esignRest.2.drop eds.length
        if eds.isEmpty || !rest6.isEmpty then Option.none
        else
          Option.some (sign * m *
            (if esignRest.1 then (10 : ℚ) ^ digitsVal eds else ((10 : ℚ) ^ digitsVal eds)⁻¹))
      else Option.none

/-- Python `float(v)` on a general value: numbers pass through, booleans
coerce to `1`/`0`, strings are parsed, everything else raises
(`Option.none`). -/
def pyFloat : PyVal → Option ℚ
  | .num q => Option.some q
  | .bool b => Option.some (if b then 1 else 0)
  | .str s => pyFloatOfString s
  | _ => Option.none

/-- Round a rational to the nearest integer, ties to even — the rounding
Python's `round` applies to the (decimal) value. -/
def intRoundEven (y : ℚ) : ℤ :=
  if y - (⌊y⌋ : ℚ) < 1 / 2 then ⌊y⌋
  else if 1 / 2 < y - (⌊y⌋ : ℚ) then ⌊y⌋ + 1
  else if 2 ∣ ⌊y⌋ then ⌊y⌋ else ⌊y⌋ + 1

/-- Python `round(x, n)`: decimal rounding to `n` places, ties to even. -/
def roundTo (n : ℕ) (x : ℚ) : ℚ :=
  (intRoundEven (x * (10 : ℚ) ^ n) : ℚ) / (10 : ℚ) ^ n

/-! ## `services/bom_conversion.py` — `UnitConverter` -/

namespace UnitConverter

/-- Source `UnitConverter.CONVERSIONS`: the fixed table of factors to millimeters
(`services/bom_conversion.py`, lines 16–36). -/
def CONVERSIONS : List (String × ℚ) :=
  [("mm", 1.0), ("millimeter", 1.0), ("millimeters", 1.0),
   ("cm", 10.0), ("centimeter", 10.0), ("centimeters", 10.0),
   ("m", 1000.0), ("meter", 1000.0), ("meters", 1000.0),
   ("in", 25.4), ("inch", 25.4), ("inches", 25.4), ("\"", 25.4),
   ("ft", 304.8), ("foot", 304.8), ("feet", 304.8),
   ("um", 0.001), ("micrometer", 0.001), ("micrometers", 0.001)]

/-- Source `UnitConverter.parse_value_with_unit` (lines 38–64): strip and lower
the input, apply the anchored regex `([\d.]+)\s*([a-z"]*)`, and convert
the numeric group with `float`; on no match, try `float` on the whole
(stripped, lowered) string with unit `"mm"`; any `float` failure is
caught and yields `(None, None)`, modelled as `Option.none`.  (The
`isinstance` branch for non-string arguments is outside the model, which
takes strings only.)  The three regex pieces use disjoint character
classes and the last two accept the empty string, so the greedy
`takeWhile` decomposition is exactly the regex's match. -/
def parse_value_with_unit (value_str : String) : Option (ℚ × String) :=
  let t := lowerStr (stripStr value_str)
  let cs := t.toList
  let group1 := cs.takeWhile (fun c => c.isDigit || c = '.')
  if group1.isEmpty then
    match pyFloatOfString t with
    | Option.some v => Option.some (v, "mm")
    | Option.none => Option.none
  else
    let rest := (cs.drop group1.length).dropWhile isPySpace
    let group2 := rest.takeWhile (fun c => ('a' ≤ c && c ≤ 'z') || c = '"')
    match pyFloatOfString (String.mk group1) with
    | Option.some value =>
        Option.some (value, if group2.isEmpty then "mm" else String.mk group2)
    | Option.none => Option.none

/-- Source `UnitConverter.to_mm` (lines 66–88): case-insensitive lookup in
`CONVERSIONS`; a known unit multiplies by its factor, an unknown unit is
treated as millimeters; either way the result is `round(·, 4)`.  (The
`except` branch fires only for non-string units, outside the model.) -/
def to_mm (value : ℚ) (unit : String) : ℚ :=
  let unit_lower := stripStr (lowerStr unit)
  match List.lookup unit_lower CONVERSIONS with
  | Option.some conversion => roundTo 4 (value * conversion)
  | Option.none => roundTo 4 value

/-- Source `UnitConverter.convert_string_to_mm` (lines 90–101): compose
`parse_value_with_unit` and `to_mm`; a parse failure returns `None`. -/
def convert_string_to_mm (value_str : String) : Option ℚ :=
  match parse_value_with_unit value_str with
  | Option.none => Option.none
  | Option.some (value, unit) => Option.some (to_mm value unit)

end UnitConverter

/-! ## `services/bom_service.py` — `BOMService` -/

namespace BOMService

/-- The `Dimensions` record produced by `calculate_dimensions`. -/
structure Dims where
  length : ℚ
  width : ℚ
  height : ℚ
  volume : ℚ
deriving DecidableEq

/-- The all-zero record returned on malformed input and on exceptions
(`services/bom_service.py`, lines 16–21 and 51–56). -/
def zeroDims : Dims := ⟨0, 0, 0, 0⟩

/-- Python's `sorted(·, reverse=True)`: stable descending sort, modelled
by insertion sort with `· ≥ ·`. -/
def sortedDesc (l : List ℚ) : List ℚ :=
  List.insertionSort (· ≥ ·) l

/-- Source `BOMService.calculate_dimensions` (lines 9–56): for a dict input,
read the six coordinates with default `0`, coerce each with `float`
(a coercion failure raises and is caught, giving the zero record),
convert meters to millimeters, sort the three extents descending, and
round the reported fields to 2 decimals; the volume is
`round(d0*d1*d2, 2)` over the *unrounded* sorted extents.  A non-dict
input returns the zero record. -/
def calculate_dimensions (bounding_box : PyVal) : Dims :=
  match bounding_box with
  | .dict kvs =>
    match pyFloat (dictGetD kvs "lowX" (.num 0)), pyFloat (dictGetD kvs "lowY" (.num 0)),
          pyFloat (dictGetD kvs "lowZ" (.num 0)), pyFloat (dictGetD kvs "highX" (.num 0)),
          pyFloat (dictGetD kvs "highY" (.num 0)), pyFloat (dictGetD kvs "highZ" (.num 0)) with
    | Option.some low_x, Option.some low_y, Option.some low_z,
      Option.some high_x, Option.some high_y, Option.some high_z =>
        let length_x := (high_x - low_x) * 1000
        let length_y := (high_y - low_y) * 1000
        let length_z := (high_z - low_z) * 1000
        let dimensions := sortedDesc [length_x, length_y, length_z]
        { length := roundTo 2 (dimensions.getD 0 0),
          width := roundTo 2 (dimensions.getD 1 0),
          height := roundTo 2 (dimensions.getD 2 0),
          volume := roundTo 2 (dimensions.getD 0 0 * dimensions.getD 1 0 * dimensions.getD 2 0) }
    | _, _, _, _, _, _ => zeroDims
  | _ => zeroDims

/-- One normalized BOM row (`process_bom_items`, lines 73–82).  Fields
hold the raw values found under the listed keys, or the placeholder
defaults. -/
structure BomRow where
  item : PyVal
  partNumber : PyVal
  name : PyVal
  quantity : PyVal
  description : PyVal
  indentLevel : PyVal
  hasChildren : PyVal
  parentId : PyVal

/-- The row built from one dict-shaped BOM item: first present key in
priority order, placeholder otherwise. -/
def mkRow (kvs : List (String × PyVal)) : BomRow :=
  { item := dictGetD kvs "item" (.str "-"),
    partNumber := dictGetD kvs "partNumber" (dictGetD kvs "PART_NUMBER" (.str "-")),
    name := dictGetD kvs "name" (dictGetD kvs "NAME" (.str "-")),
    quantity := dictGetD kvs "quantity" (dictGetD kvs "QUANTITY" (.str "-")),
    description := dictGetD kvs "description" (dictGetD kvs "DESCRIPTION" (.str "-")),
    indentLevel := dictGetD kvs "indentLevel" (.num 0),
    hasChildren := dictGetD kvs "hasChildren" (.bool false),
    parentId := dictGetD kvs "parentId" .none }

/-- Source `BOMService.process_bom_items` (lines 58–89): a non-list input gives
`[]`; each non-dict element is skipped with a warning; each dict element
appends its normalized row.  Nothing in the loop raises, so the `except`
branch is unreachable. -/
def process_bom_items (items : PyVal) : List BomRow :=
  match items with
  | .list l =>
      l.foldl (fun processed it =>
        match it with
        | .dict kvs => processed ++ [mkRow kvs]
        | _ => processed) []
  | _ => []

end BOMService

/-! ## `routes/property_resolver.py` — `PropertyResolver` -/

namespace PropertyResolver

/-- Source `PropertyResolver.resolve_property_value`
(`routes/property_resolver.py`, lines 198–271), with the two network
fetches replaced by their results: `all_vars` maps each variable name to
the `"value"` field of its parsed entry (what strategy 1 reads), and
`bbox_dims` is the result of `get_bbox_dimensions` (`Option.none` when the
part has no bounding box).  Strategy 1 runs only when `config_var_name`
is truthy, requires the variable to be present and `float`-coercible, and
short-circuits; otherwise strategy 2 returns the dimension matching the
lowercased property name; otherwise the result is `None`. -/
def resolve_property_value (all_vars : List (String × PyVal))
    (bbox_dims : Option BOMService.Dims) (property_name : String)
    (config_var_name : Option String) : Option ℚ :=
  let strategy1 : Option ℚ :=
    match config_var_name with
    | Option.some cname =>
      if cname = "" then Option.none
      else
        match List.lookup cname all_vars with
        | Option.some value => pyFloat value
        | Option.none => Option.none
    | Option.none => Option.none
  match strategy1 with
  | Option.some value_float => Option.some value_float
  | Option.none =>
    match bbox_dims with
    | Option.some dims =>
      if lowerStr property_name = "length" then Option.some dims.length
      else if lowerStr property_name = "width" then Option.some dims.width
      else if lowerStr property_name = "height" then Option.some dims.height
      else Option.none
    | Option.none => Option.none

/-- Python truthiness of a resolved value (`float` or `None`): `None` and
`0.0` are falsy. -/
def truthyFloat : Option ℚ → Bool
  | Option.some q => decide (q ≠ 0)
  | Option.none => false

/-- The `create_custom_property_safe` calls that
`create_length_properties_smart` (lines 408–447) issues for one part,
given the three resolved values: none at all when no value is truthy
(`has_values` check, lines 409–415), else one call per truthy value. -/
def create_calls (length_val width_val height_val : Option ℚ) : List (String × ℚ) :=
  if !(truthyFloat length_val || truthyFloat width_val || truthyFloat height_val) then []
  else
    (if truthyFloat length_val then [("Length", length_val.getD 0)] else []) ++
    (if truthyFloat width_val then [("Width", width_val.getD 0)] else []) ++
    (if truthyFloat height_val then [("Height", height_val.getD 0)] else [])

end PropertyResolver

/-! ## `services/metadata_service.py` — `MetadataService`

Functions that the source wraps in `try/except` are modelled with
`Option`, `Option.none` covering both the explicit `return None` and the
exception paths.  Python `None` inside payloads is `PyVal.none`, so
`d.get(k)` is collapsed to a `PyVal` (missing key ↦ `PyVal.none`). -/

namespace MetadataService

/-- One entry of the POSTed `properties` array
(`_build_update_body`, lines 290–301). -/
structure PostProp where
  propertyId : PyVal
  value : PyVal

/-- The single entry of the POSTed `items` array (lines 308–313). -/
structure PostItem where
  href : PyVal
  properties : List PostProp

/-- The body POSTed back to the metadata endpoint. -/
structure PostBody where
  items : List PostItem

/-- Source `MetadataService._get_properties` (lines 212–221).  Result
`Option.none` means the call raised (it has no `try/except` of its own):
that happens when a truthy `metadata` is not a dict, or a truthy `items`
is not a list (`len`/`items[0]`/`.get` raise on every such shape). -/
def _get_properties (metadata : PyVal) : Option PyVal :=
  if !pyTruthy metadata then Option.some (.list [])
  else
    match metadata with
    | .dict kvs =>
      let items := dictGetD kvs "items" (.list [])
      if !pyTruthy items then Option.some (.list [])
      else
        match items with
        | .list (item0 :: _) =>
          match item0 with
          | .dict ikvs => Option.some (dictGetD ikvs "properties" (.list []))
          | _ => Option.none
        | .list [] => Option.some (.list [])
        | _ => Option.none
    | _ => Option.none

/-- The `for prop in properties` loop of `_build_property_map`
(lines 236–242), carried out over the accumulated map.  `Option.none`
models the loop raising: a non-dict element (its `.get` raises) or an
unhashable truthy `propertyId` (the dict assignment raises). -/
def build_property_map_loop (ps : List PyVal) (prop_map : List (PyVal × PyVal)) :
    Option (List (PyVal × PyVal)) :=
  match ps with
  | [] => Option.some prop_map
  | p :: rest =>
    match p with
    | .dict kvs =>
      let prop_id := dictGet kvs "propertyId"
      if pyTruthy prop_id then
        match prop_id with
        | .list _ => Option.none
        | .dict _ => Option.none
        | _ => build_property_map_loop rest (prop_map ++ [(prop_id, prop_id)])
      else build_property_map_loop rest prop_map
    | _ => Option.none

/-- Source `MetadataService._build_property_map` (lines 223–244): walk the
properties, and for each truthy `propertyId` store it as both key and
value (the source's comment: OnShape does not always return the property
name).  An unhashable id or a non-dict element raises.  Since
`_build_update_body` never reads the resulting map, the Python dict's
duplicate-key collapsing is not modelled; entries are kept in insertion
order. -/
def _build_property_map (metadata : PyVal) : Option (List (PyVal × PyVal)) :=
  match _get_properties metadata with
  | Option.none => Option.none
  | Option.some props =>
    match props with
    | .list ps => build_property_map_loop ps []
    | .dict [] => Option.some []
    | .str s => if s = "" then Option.some [] else Option.none
    | _ => Option.none

/-- The loop of `_build_update_body` over `current_properties`
(lines 281–301): each dict element contributes exactly one output entry —
with the new value when `property_updates` has the element's
`propertyId` as a key (`is not None` check), else with the old value.
A non-dict element or an unhashable `propertyId` raises
(`Option.none`). -/
def merge_one (current_prop : PyVal)
    (property_updates : List (String × String)) : Option PostProp :=
  match current_prop with
  | .dict kvs =>
    let prop_id := dictGet kvs "propertyId"
    match prop_id with
    | .list _ => Option.none
    | .dict _ => Option.none
    | _ =>
      let new_value : Option String :=
        match prop_id with
        | .str s => List.lookup s property_updates
        | _ => Option.none
      match new_value with
      | Option.some nv => Option.some { propertyId := prop_id, value := .str nv }
      | Option.none => Option.some { propertyId := prop_id, value := dictGet kvs "value" }
  | _ => Option.none

/-- The full loop: every element contributes exactly one entry via
`merge_one`, and the first raising element aborts the walk. -/
def merge_properties (current_properties : List PyVal)
    (property_updates : List (String × String)) : Option (List PostProp) :=
  match current_properties with
  | [] => Option.some []
  | current_prop :: rest =>
    match merge_one current_prop property_updates with
    | Option.none => Option.none
    | Option.some e =>
      match merge_properties rest property_updates with
      | Option.none => Option.none
      | Option.some tail => Option.some (e :: tail)

/-- Source `MetadataService._build_update_body` (lines 246–319).  Note that the
`property_map` parameter is never read by the source implementation; it
is kept here for signature fidelity.  `Option.none` covers the explicit
`return None` branches (no items, falsy `href`, empty merged array) and
the exception paths (non-dict metadata/item, non-list `items` or
`properties` — every truthy non-list shape raises in `len`, indexing,
iteration or `.get`). -/
def _build_update_body (current_metadata : PyVal)
    (property_updates : List (String × String))
    (property_map : List (PyVal × PyVal)) : Option PostBody :=
  match current_metadata with
  | .dict kvs =>
    match dictGetD kvs "items" (.list []) with
    | .list [] => Option.none
    | .list (current_item :: _) =>
      match current_item with
      | .dict ikvs =>
        let current_href := dictGet ikvs "href"
        if !pyTruthy current_href then Option.none
        else
          match dictGetD ikvs "properties" (.list []) with
          | .list current_properties =>
            match merge_properties current_properties property_updates with
            | Option.none => Option.none
            | Option.some updated_properties =>
              if updated_properties.isEmpty then Option.none
              else Option.some { items := [{ href := current_href, properties := updated_properties }] }
          | _ => Option.none
      | _ => Option.none
    | _ => Option.none
  | _ => Option.none

/-- The `properties` list that `_build_update_body` walks for a given
current-metadata document (the path `items[0]["properties"]` with the
source's defaults), or `[]` when the document does not have that shape.
Used to state the frame property of the merge. -/
def existingProperties (current_metadata : PyVal) : List PyVal :=
  match current_metadata with
  | .dict kvs =>
    match dictGetD kvs "items" (.list []) with
    | .list (current_item :: _) =>
      match current_item with
      | .dict ikvs =>
        match dictGetD ikvs "properties" (.list []) with
        | .list ps => ps
        | _ => []
      | _ => []
    | _ => []
  | _ => []

/-- The `propertyId` a walked property element contributes to the POST
body (`current_prop.get("propertyId")`, missing ↦ `None`). -/
def propIdOf (p : PyVal) : PyVal :=
  match p with
  | .dict kvs => dictGet kvs "propertyId"
  | _ => .none

/-- Source `MetadataService.update_part_metadata` (lines 85–159), with the two
HTTP calls replaced by their results: `current_metadata` is what
`get_part_metadata` returned (`Option.none` when the GET answered
404 "not found"), and `post_ok` tells whether the POST would answer 200.
The result pairs the returned boolean with the body POSTed
(`Option.none` when no POST was performed).  A `Option.none` from
`_build_property_map` is an exception caught by the outer `except`
(return `False`, no POST); a falsy `update_body` returns `False` before
the POST. -/
def update_part_metadata (current_metadata : Option PyVal)
    (property_updates : List (String × String)) (post_ok : Bool) :
    Bool × Option PostBody :=
  match current_metadata with
  | Option.none => (false, Option.none)
  | Option.some md =>
    match _build_property_map md with
    | Option.none => (false, Option.none)
    | Option.some property_map =>
      match _build_update_body md property_updates property_map with
      | Option.none => (false, Option.none)
      | Option.some update_body => (post_ok, Option.some update_body)

end MetadataService

/-! ## Helper lemmas -/

theorem intRoundEven_le_ceil (y : ℚ) : intRoundEven y ≤ ⌊y⌋ + 1 := by
  unfold intRoundEven
  split_ifs <;> omega

theorem floor_le_intRoundEven (y : ℚ) : ⌊y⌋ ≤ intRoundEven y := by
  unfold intRoundEven
  split_ifs <;> omega

theorem intRoundEven_mono {x y : ℚ} (h : x ≤ y) : intRoundEven x ≤ intRoundEven y := by
  have hf : ⌊x⌋ ≤ ⌊y⌋ := Int.floor_le_floor h
  by_cases hlt : ⌊x⌋ < ⌊y⌋
  · calc intRoundEven x ≤ ⌊x⌋ + 1 := intRoundEven_le_ceil x
    _ ≤ ⌊y⌋ := by omega
    _ ≤ intRoundEven y := floor_le_intRoundEven y
  · have heq : ⌊x⌋ = ⌊y⌋ := le_antisymm hf (not_lt.mp hlt)
    have hr : x - (⌊x⌋ : ℚ) ≤ y - (⌊y⌋ : ℚ) := by
      rw [← heq]; linarith
    unfold intRoundEven
    rw [heq] at *
    split_ifs <;> first | omega | linarith

theorem intRoundEven_intCast (k : ℤ) : intRoundEven (k : ℚ) = k := by
  unfold intRoundEven
  rw [Int.floor_intCast]
  norm_num

theorem roundTo_mono (n : ℕ) {x y : ℚ} (h : x ≤ y) : roundTo n x ≤ roundTo n y := by
  unfold roundTo
  have hp : (0 : ℚ) < (10 : ℚ) ^ n := by positivity
  have hm : x * (10 : ℚ) ^ n ≤ y * (10 : ℚ) ^ n :=
    mul_le_mul_of_nonneg_right h (le_of_lt hp)
  have := intRoundEven_mono hm
  exact div_le_div_of_nonneg_right (by exact_mod_cast this) (le_of_lt hp)

theorem roundTo_intMul (n : ℕ) (k : ℤ) : roundTo n ((k : ℚ) / (10 : ℚ) ^ n) = (k : ℚ) / (10 : ℚ) ^ n := by
  unfold roundTo
  have hp : ((10 : ℚ) ^ n) ≠ 0 := by positivity
  rw [div_mul_cancel₀ _ hp, intRoundEven_intCast]

theorem roundTo_zero (n : ℕ) : roundTo n 0 = 0 := by
  have := roundTo_intMul n 0
  simpa using this

theorem roundTo_nonneg (n : ℕ) {x : ℚ} (h : 0 ≤ x) : 0 ≤ roundTo n x := by
  have := roundTo_mono n h
  rwa [roundTo_zero] at this

theorem sortedDesc_three (x y z : ℚ) :
    ∃ a b c, BOMService.sortedDesc [x, y, z] = [a, b, c] ∧ b ≤ a ∧ c ≤ b ∧
      a * b * c = x * y * z ∧ c ∈ [x, y, z] := by
  have hperm : List.Perm (BOMService.sortedDesc [x, y, z]) [x, y, z] :=
    List.perm_insertionSort _ _
  have hsorted : (BOMService.sortedDesc [x, y, z]).Sorted (· ≥ ·) :=
    List.sorted_insertionSort _ _
  have hlen : (BOMService.sortedDesc [x, y, z]).length = 3 := by
    rw [hperm.length_eq]; rfl
  obtain ⟨a, b, c, habc⟩ := List.length_eq_three.mp hlen
  refine ⟨a, b, c, habc, ?_, ?_, ?_, ?_⟩
  · rw [habc] at hsorted
    simp [List.sorted_cons] at hsorted
    exact hsorted.1.1
  · rw [habc] at hsorted
    simp [List.sorted_cons] at hsorted
    exact hsorted.2
  · have := hperm.prod_eq
    rw [habc] at this
    simpa [mul_assoc] using this
  · rw [habc] at hperm
    exact hperm.mem_iff.mp (by simp)

theorem calculate_dimensions_dict_eq (kvs : List (String × PyVal))
    (lx ly lz hx hy hz : ℚ)
    (h1 : pyFloat (dictGetD kvs "lowX" (.num 0)) = Option.some lx)
    (h2 : pyFloat (dictGetD kvs "lowY" (.num 0)) = Option.some ly)
    (h3 : pyFloat (dictGetD kvs "lowZ" (.num 0)) = Option.some lz)
    (h4 : pyFloat (dictGetD kvs "highX" (.num 0)) = Option.some hx)
    (h5 : pyFloat (dictGetD kvs "highY" (.num 0)) = Option.some hy)
    (h6 : pyFloat (dictGetD kvs "highZ" (.num 0)) = Option.some hz) :
    ∃ a b c,
      b ≤ a ∧ c ≤ b ∧
      a * b * c = ((hx - lx) * 1000) * ((hy - ly) * 1000) * ((hz - lz) * 1000) ∧
      c ∈ [(hx - lx) * 1000, (hy - ly) * 1000, (hz - lz) * 1000] ∧
      BOMService.calculate_dimensions (.dict kvs) =
        ⟨roundTo 2 a, roundTo 2 b, roundTo 2 c, roundTo 2 (a * b * c)⟩ := by
  obtain ⟨a, b, c, hl, hba, hcb, hprod, hmem⟩ :=
    sortedDesc_three ((hx - lx) * 1000) ((hy - ly) * 1000) ((hz - lz) * 1000)
  refine ⟨a, b, c, hba, hcb, hprod, hmem, ?_⟩
  simp only [BOMService.calculate_dimensions, h1, h2, h3, h4, h5, h6, hl]
  simp

theorem process_loop_eq (l : List PyVal) (acc : List BOMService.BomRow) :
    l.foldl (fun processed it =>
      match it with
      | .dict kvs => processed ++ [BOMService.mkRow kvs]
      | _ => processed) acc =
    acc ++ l.filterMap (fun it =>
      match it with
      | .dict kvs => Option.some (BOMService.mkRow kvs)
      | _ => Option.none) := by
  induction l generalizing acc with
  | nil => simp
  | cons hd tl ih =>
    cases hd <;> simp [List.foldl_cons, ih]

theorem merge_one_propertyId (p : PyVal) (u : List (String × String))
    (e : MetadataService.PostProp)
    (h : MetadataService.merge_one p u = Option.some e) :
    e.propertyId = MetadataService.propIdOf p := by
  cases p with
  | dict kvs =>
    unfold MetadataService.merge_one at h
    simp only at h
    rcases hpid : dictGet kvs "propertyId" with _ | b | q | s | l | d <;>
        rw [hpid] at h <;> simp only at h
    case str =>
      rcases hlk : List.lookup s u with _ | nv <;> rw [hlk] at h <;>
        injection h with h' <;> rw [← h'] <;>
        simp [MetadataService.propIdOf, hpid]
    all_goals
      first
      | (injection h with h'; rw [← h']; simp [MetadataService.propIdOf, hpid])
      | simp at h
  | none => exact absurd h (by simp [MetadataService.merge_one])
  | bool b => exact absurd h (by simp [MetadataService.merge_one])
  | num q => exact absurd h (by simp [MetadataService.merge_one])
  | str s => exact absurd h (by simp [MetadataService.merge_one])
  | list l => exact absurd h (by simp [MetadataService.merge_one])

theorem merge_properties_ids (ps : List PyVal) (u : List (String × String))
    (merged : List MetadataService.PostProp)
    (h : MetadataService.merge_properties ps u = Option.some merged) :
    merged.map MetadataService.PostProp.propertyId = ps.map MetadataService.propIdOf := by
  induction ps generalizing merged with
  | nil =>
    simp [MetadataService.merge_properties] at h
    simp [← h]
  | cons hd tl ih =>
    unfold MetadataService.merge_properties at h
    rcases h1 : MetadataService.merge_one hd u with _ | e <;> rw [h1] at h
    · exact absurd h (by simp)
    · rcases h2 : MetadataService.merge_properties tl u with _ | tail <;>
        rw [h2] at h
      · exact absurd h (by simp)
      · injection h with h'
        rw [← h']
        simp [merge_one_propertyId hd u e h1, ih tail h2]

theorem calculate_dimensions_zero_or_coords (bb : PyVal) :
    BOMService.calculate_dimensions bb = BOMService.zeroDims ∨
    ∃ kvs lx ly lz hx hy hz, bb = PyVal.dict kvs ∧
      pyFloat (dictGetD kvs "lowX" (.num 0)) = Option.some lx ∧
      pyFloat (dictGetD kvs "lowY" (.num 0)) = Option.some ly ∧
      pyFloat (dictGetD kvs "lowZ" (.num 0)) = Option.some lz ∧
      pyFloat (dictGetD kvs "highX" (.num 0)) = Option.some hx ∧
      pyFloat (dictGetD kvs "highY" (.num 0)) = Option.some hy ∧
      pyFloat (dictGetD kvs "highZ" (.num 0)) = Option.some hz := by
  cases bb with
  | dict kvs =>
    rcases e1 : pyFloat (dictGetD kvs "lowX" (.num 0)) with _ | lx
    · left; simp [BOMService.calculate_dimensions, e1]
    rcases e2 : pyFloat (dictGetD kvs "lowY" (.num 0)) with _ | ly
    · left; simp [BOMService.calculate_dimensions, e1, e2]
    rcases e3 : pyFloat (dictGetD kvs "lowZ" (.num 0)) with _ | lz
    · left; simp [BOMService.calculate_dimensions, e1, e2, e3]
    rcases e4 : pyFloat (dictGetD kvs "highX" (.num 0)) with _ | hx
    · left; simp [BOMService.calculate_dimensions, e1, e2, e3, e4]
    rcases e5 : pyFloat (dictGetD kvs "highY" (.num 0)) with _ | hy
    · left; simp [BOMService.calculate_dimensions, e1, e2, e3, e4, e5]
    rcases e6 : pyFloat (dictGetD kvs "highZ" (.num 0)) with _ | hz
    · left; simp [BOMService.calculate_dimensions, e1, e2, e3, e4, e5, e6]
    right; exact ⟨kvs, lx, ly, lz, hx, hy, hz, rfl, e1, e2, e3, e4, e5, e6⟩
  | none => left; rfl
  | bool b => left; rfl
  | num q => left; rfl
  | str s => left; rfl
  | list l => left; rfl

/-! ## Claims -/

/-- C3 (counterexample): the claim `length ≥ width ≥ height ≥ 0` for
*every* bounding box is false: a degenerate box whose `highX` (defaulted
to `0`) lies below its `lowX = 1` yields `height = -1000 < 0`. -/
theorem c3_degenerate_box_negative_height :
    (BOMService.calculate_dimensions (.dict [("lowX", .num 1)])).height < 0 := by
  simp [BOMService.calculate_dimensions, dictGetD, List.lookup, pyFloat,
    BOMService.sortedDesc, List.insertionSort, List.orderedInsert]
  norm_num [roundTo, intRoundEven]

/-- C3 (amended): for every input, `calculate_dimensions` satisfies
`length ≥ width ≥ height`; the bound `height ≥ 0` additionally holds
whenever every high coordinate is at least its low coordinate (the
degenerate-box case is exactly where it fails, see the counterexample). -/
theorem c3_dimension_ordering_amended (bb : PyVal) :
    ((BOMService.calculate_dimensions bb).height ≤ (BOMService.calculate_dimensions bb).width ∧
      (BOMService.calculate_dimensions bb).width ≤ (BOMService.calculate_dimensions bb).length) ∧
    (∀ kvs lx ly lz hx hy hz, bb = PyVal.dict kvs →
      pyFloat (dictGetD kvs "lowX" (.num 0)) = Option.some lx →
      pyFloat (dictGetD kvs "lowY" (.num 0)) = Option.some ly →
      pyFloat (dictGetD kvs "lowZ" (.num 0)) = Option.some lz →
      pyFloat (dictGetD kvs "highX" (.num 0)) = Option.some hx →
      pyFloat (dictGetD kvs "highY" (.num 0)) = Option.some hy →
      pyFloat (dictGetD kvs "highZ" (.num 0)) = Option.some hz →
      lx ≤ hx → ly ≤ hy → lz ≤ hz →
      0 ≤ (BOMService.calculate_dimensions bb).height) := by
  constructor
  · rcases calculate_dimensions_zero_or_coords bb with hz0 |
      ⟨kvs, lx, ly, lz, hx, hy, hzq, hbb, e1, e2, e3, e4, e5, e6⟩
    · rw [hz0]
      simp [BOMService.zeroDims]
    · obtain ⟨a, b, c, hba, hcb, _, _, heq⟩ :=
        calculate_dimensions_dict_eq kvs lx ly lz hx hy hzq e1 e2 e3 e4 e5 e6
      rw [hbb, heq]
      exact ⟨roundTo_mono 2 hcb, roundTo_mono 2 hba⟩
  · intro kvs lx ly lz hx hy hzq hbb e1 e2 e3 e4 e5 e6 g1 g2 g3
    subst hbb
    obtain ⟨a, b, c, _, _, _, hmem, heq⟩ :=
      calculate_dimensions_dict_eq kvs lx ly lz hx hy hzq e1 e2 e3 e4 e5 e6
    rw [heq]
    show 0 ≤ roundTo 2 c
    apply roundTo_nonneg
    simp only [List.mem_cons, List.mem_singleton] at hmem
    rcases hmem with hc | hc | hc | hc <;> first
      | (rw [hc]; nlinarith)
      | simp at hc

/-- C3 witness: the amended theorem applied to the box
`{highX: 1}` (all other coordinates defaulting to `0`). -/
theorem c3_dimension_ordering_amended_witness :
    0 ≤ (BOMService.calculate_dimensions (.dict [("highX", .num 1)])).height ∧
    (BOMService.calculate_dimensions (.dict [("highX", .num 1)])).width ≤
      (BOMService.calculate_dimensions (.dict [("highX", .num 1)])).length := by
  constructor
  · exact (c3_dimension_ordering_amended _).2 [("highX", .num 1)] 0 0 0 1 0 0
      rfl rfl rfl rfl rfl rfl rfl (by norm_num) (by norm_num) (by norm_num)
  · exact (c3_dimension_ordering_amended _).1.2

/-- C4 (counterexample): the volume is *not* computed from the rounded
dimensions.  For the cube with every extent `100.004` mm the returned
fields are `⟨100, 100, 100, 1000120⟩`, and `1000120` differs from
`round(100·100·100, 2) = 1000000` by far more than the claimed `±0.01`
tolerance. -/
theorem c4_volume_tolerance_violated :
    BOMService.calculate_dimensions (.dict
        [("highX", .num 0.100004), ("highY", .num 0.100004), ("highZ", .num 0.100004)]) =
      ⟨100, 100, 100, 1000120⟩ ∧
    1 / 100 < |(1000120 : ℚ) - roundTo 2 (100 * 100 * 100)| := by
  constructor
  · simp [BOMService.calculate_dimensions, dictGetD, List.lookup, pyFloat,
      BOMService.sortedDesc, List.insertionSort, List.orderedInsert]
    norm_num [roundTo, intRoundEven]
  · have h : roundTo 2 (100 * 100 * 100 : ℚ) = 1000000 := by
      norm_num [roundTo, intRoundEven]
    rw [h, show |(1000120 : ℚ) - 1000000| = 120 by rw [abs_of_nonneg] <;> norm_num]
    norm_num

/-- C4 (amended): the returned volume is the 2-decimal rounding of the
product of the three *unrounded* axis extents; the per-field rounding of
length/width/height happens only in the reported fields, after the
product is taken. -/
theorem c4_volume_from_unrounded_extents
    (kvs : List (String × PyVal)) (lx ly lz hx hy hz : ℚ)
    (h1 : pyFloat (dictGetD kvs "lowX" (.num 0)) = Option.some lx)
    (h2 : pyFloat (dictGetD kvs "lowY" (.num 0)) = Option.some ly)
    (h3 : pyFloat (dictGetD kvs "lowZ" (.num 0)) = Option.some lz)
    (h4 : pyFloat (dictGetD kvs "highX" (.num 0)) = Option.some hx)
    (h5 : pyFloat (dictGetD kvs "highY" (.num 0)) = Option.some hy)
    (h6 : pyFloat (dictGetD kvs "highZ" (.num 0)) = Option.some hz) :
    (BOMService.calculate_dimensions (.dict kvs)).volume =
      roundTo 2 (((hx - lx) * 1000) * (((hy - ly) * 1000) * ((hz - lz) * 1000))) := by
  obtain ⟨a, b, c, _, _, hprod, _, heq⟩ :=
    calculate_dimensions_dict_eq kvs lx ly lz hx hy hz h1 h2 h3 h4 h5 h6
  rw [heq]
  show roundTo 2 (a * b * c) = _
  rw [hprod, mul_assoc]

/-- C4 witness: the amended theorem applied to the box
`{lowX: 0.001, highX: 0.004, highY: 0.002}`. -/
theorem c4_volume_from_unrounded_extents_witness :
    (BOMService.calculate_dimensions (.dict
        [("lowX", .num 0.001), ("highX", .num 0.004), ("highY", .num 0.002)])).volume =
      roundTo 2 ((((0.004 : ℚ) - 0.001) * 1000) *
        ((((0.002 : ℚ) - 0) * 1000) * (((0 : ℚ) - 0) * 1000))) :=
  c4_volume_from_unrounded_extents _ 0.001 0 0 0.004 0.002 0 rfl rfl rfl rfl rfl rfl

/-- C5 (counterexample): a negative degenerate box is *not* mapped to the
all-zero record: with `lowY = 2` and all other coordinates defaulting to
`0` the function returns `⟨0, 0, -2000, 0⟩ ≠ zeroDims`. -/
theorem c5_degenerate_box_not_zeroed :
    BOMService.calculate_dimensions (.dict [("lowY", .num 2)]) = ⟨0, 0, -2000, 0⟩ ∧
    BOMService.calculate_dimensions (.dict [("lowY", .num 2)]) ≠ BOMService.zeroDims := by
  have heval : BOMService.calculate_dimensions (.dict [("lowY", .num 2)]) = ⟨0, 0, -2000, 0⟩ := by
    simp [BOMService.calculate_dimensions, dictGetD, List.lookup, pyFloat,
      BOMService.sortedDesc, List.insertionSort, List.orderedInsert]
    norm_num [roundTo, intRoundEven]
  refine ⟨heval, ?_⟩
  rw [heval]
  simp only [BOMService.zeroDims, ne_eq, BOMService.Dims.mk.injEq]
  norm_num

/-- C5 (amended): an input that is not a record does give the all-zero
record (and the Lean embedding is a total function: no input raises);
the "negative degenerate box" half of the claim is dropped — such a box
flows through the normal computation, see the counterexample. -/
theorem c5_non_record_gives_zero_dims (v : PyVal) (h : ∀ kvs, v ≠ PyVal.dict kvs) :
    BOMService.calculate_dimensions v = BOMService.zeroDims := by
  cases v with
  | dict kvs => exact absurd rfl (h kvs)
  | none => rfl
  | bool b => rfl
  | num q => rfl
  | str s => rfl
  | list l => rfl

/-- C5 witness: the amended theorem applied to the non-record input
`"no geometry"`. -/
theorem c5_non_record_gives_zero_dims_witness :
    BOMService.calculate_dimensions (.str "no geometry") = BOMService.zeroDims :=
  c5_non_record_gives_zero_dims _ (fun kvs hk => by cases hk)

/-- C6 (counterexample): the conversion table has *no* yard entry, so
`to_mm 1 "yd"` falls through the unknown-unit branch and returns `1`,
not `914.4`; and `to_mm(v, "mm")` is `round(v, 4)`, which is not the
identity: `to_mm (1/100000) "mm" = 0 ≠ 1/100000`. -/
theorem c6_yard_missing_and_mm_rounds :
    List.lookup "yd" UnitConverter.CONVERSIONS = Option.none ∧
    UnitConverter.to_mm 1 "yd" = 1 ∧
    UnitConverter.to_mm (1 / 100000) "mm" = 0 ∧ (1 / 100000 : ℚ) ≠ 0 := by
  refine ⟨by simp [UnitConverter.CONVERSIONS, List.lookup], ?_, ?_, by norm_num⟩
  · simp [UnitConverter.to_mm, UnitConverter.CONVERSIONS, stripStr, lowerStr, isPySpace,
      List.lookup]
    norm_num [roundTo, intRoundEven]
  · simp [UnitConverter.to_mm, UnitConverter.CONVERSIONS, stripStr, lowerStr, isPySpace,
      List.lookup]
    norm_num [roundTo, intRoundEven]

/-- C6 (amended): for every unit actually in the table (which has
mm/cm/m/in/ft/µm spellings and `"` but no yard), `to_mm 1 u` equals the
table factor; `to_mm v "mm"` equals `round(v, 4)`, hence equals `v`
exactly when `v` has at most 4 decimal places. -/
theorem c6_unit_table_amended :
    (∀ p ∈ UnitConverter.CONVERSIONS, UnitConverter.to_mm 1 p.1 = p.2) ∧
    (∀ v : ℚ, UnitConverter.to_mm v "mm" = roundTo 4 v) ∧
    (∀ v : ℚ, (∃ k : ℤ, v = (k : ℚ) / (10 : ℚ) ^ 4) → UnitConverter.to_mm v "mm" = v) := by
  have hmm : ∀ v : ℚ, UnitConverter.to_mm v "mm" = roundTo 4 v := by
    intro v
    simp [UnitConverter.to_mm, UnitConverter.CONVERSIONS, stripStr, lowerStr, isPySpace,
      List.lookup]
    norm_num
  refine ⟨?_, hmm, ?_⟩
  · intro p hp
    fin_cases hp <;>
      (simp [UnitConverter.to_mm, UnitConverter.CONVERSIONS, stripStr, lowerStr, isPySpace,
        List.lookup]
       norm_num [roundTo, intRoundEven])
  · rintro v ⟨k, rfl⟩
    rw [hmm, roundTo_intMul]

/-- C6 witness: the amended theorem applied to the `"in"` entry of the
table and to `v = 0.003` (which has 4 decimal places). -/
theorem c6_unit_table_amended_witness :
    UnitConverter.to_mm 1 "in" = 25.4 ∧ UnitConverter.to_mm 0.003 "mm" = 0.003 := by
  constructor
  · exact c6_unit_table_amended.1 ("in", 25.4) (by simp [UnitConverter.CONVERSIONS])
  · exact c6_unit_table_amended.2.2 0.003 ⟨30, by norm_num⟩

/-- C7: `convert_string_to_mm` is total; whenever the numeric part fails
to parse it returns `None`; `"garbage"` gives `None`; `"10 in"` gives
`254.0`; and a string with no unit token, such as `"10"`, is treated as
millimeters. -/
theorem c7_convert_string_total :
    (∀ s, UnitConverter.parse_value_with_unit s = Option.none →
      UnitConverter.convert_string_to_mm s = Option.none) ∧
    UnitConverter.convert_string_to_mm "garbage" = Option.none ∧
    UnitConverter.convert_string_to_mm "10 in" = Option.some 254 ∧
    UnitConverter.convert_string_to_mm "10" = Option.some 10 := by
  refine ⟨?_, ?_, ?_, ?_⟩
  · intro s h
    simp [UnitConverter.convert_string_to_mm, h]
  · simp [UnitConverter.convert_string_to_mm, UnitConverter.parse_value_with_unit,
      stripStr, lowerStr, isPySpace, pyFloatOfString, digitsVal]
  · simp [UnitConverter.convert_string_to_mm, UnitConverter.parse_value_with_unit,
      UnitConverter.to_mm, UnitConverter.CONVERSIONS, stripStr, lowerStr, isPySpace,
      pyFloatOfString, digitsVal, List.lookup]
    norm_num [roundTo, intRoundEven]
  · simp [UnitConverter.convert_string_to_mm, UnitConverter.parse_value_with_unit,
      UnitConverter.to_mm, UnitConverter.CONVERSIONS, stripStr, lowerStr, isPySpace,
      pyFloatOfString, digitsVal, List.lookup]
    norm_num [roundTo, intRoundEven]

/-- C7 witness: the totality clause applied to the unparseable string
`"no digits here"`. -/
theorem c7_convert_string_total_witness :
    UnitConverter.convert_string_to_mm "no digits here" = Option.none :=
  c7_convert_string_total.1 "no digits here"
    (by simp [UnitConverter.parse_value_with_unit, stripStr, lowerStr, isPySpace,
      pyFloatOfString, digitsVal])

/-- C8: the BOM normalizer is total: `normalize([]) = []`; on any list it
equals the in-order `filterMap` that drops every non-record element and
normalizes the rest (so valid entries are preserved in order); a
non-list input gives `[]`; and an empty record is filled entirely with
the placeholders. -/
theorem c8_normalizer_total :
    BOMService.process_bom_items (.list []) = [] ∧
    (∀ items : List PyVal,
      BOMService.process_bom_items (.list items) =
        items.filterMap (fun it =>
          match it with
          | .dict kvs => Option.some (BOMService.mkRow kvs)
          | _ => Option.none)) ∧
    (∀ v : PyVal, (∀ l, v ≠ PyVal.list l) → BOMService.process_bom_items v = []) ∧
    BOMService.mkRow [] =
      ⟨.str "-", .str "-", .str "-", .str "-", .str "-", .num 0, .bool false, .none⟩ := by
  refine ⟨rfl, ?_, ?_, rfl⟩
  · intro items
    unfold BOMService.process_bom_items
    simpa using process_loop_eq items []
  · intro v h
    cases v with
    | list l => exact absurd rfl (h l)
    | none => rfl
    | bool b => rfl
    | num q => rfl
    | str s => rfl
    | dict kvs => rfl

/-- C8 witness: the non-list clause applied to the junk input `"nope"`. -/
theorem c8_normalizer_total_witness :
    BOMService.process_bom_items (.str "nope") = [] :=
  c8_normalizer_total.2.2.1 _ (fun l hl => by cases hl)

/-- C2: the resolver's strategies short-circuit in order.  (1) When the
named configuration variable exists and coerces to a float, its value is
returned and the result does not depend on the bounding box.  (2) When
strategy 1 cannot produce a value (no name, empty name, variable absent,
or value not coercible — the hypothesis covers every such case), a part
with a bounding box gets the dimension matching the lowercased property
name.  (3) With neither source the result is `None`, and a part whose
three resolutions are all `None` triggers no property-creation call. -/
theorem c2_resolver_fallback_order :
    (∀ (all_vars : List (String × PyVal)) (bbox bbox' : Option BOMService.Dims)
        (property_name cname : String) (value : PyVal) (q : ℚ),
      cname ≠ "" → List.lookup cname all_vars = Option.some value →
      pyFloat value = Option.some q →
      PropertyResolver.resolve_property_value all_vars bbox property_name (Option.some cname) =
          Option.some q ∧
        PropertyResolver.resolve_property_value all_vars bbox property_name (Option.some cname) =
          PropertyResolver.resolve_property_value all_vars bbox' property_name (Option.some cname)) ∧
    (∀ (all_vars : List (String × PyVal)) (dims : BOMService.Dims) (property_name : String)
        (cfg : Option String),
      (∀ cname, cfg = Option.some cname → cname ≠ "" →
        ∀ value, List.lookup cname all_vars = Option.some value →
          pyFloat value = Option.none) →
      PropertyResolver.resolve_property_value all_vars (Option.some dims) property_name cfg =
        (if lowerStr property_name = "length" then Option.some dims.length
         else if lowerStr property_name = "width" then Option.some dims.width
         else if lowerStr property_name = "height" then Option.some dims.height
         else Option.none)) ∧
    (∀ (all_vars : List (String × PyVal)) (property_name : String) (cfg : Option String),
      (∀ cname, cfg = Option.some cname → cname ≠ "" →
        ∀ value, List.lookup cname all_vars = Option.some value →
          pyFloat value = Option.none) →
      PropertyResolver.resolve_property_value all_vars Option.none property_name cfg =
        Option.none) ∧
    PropertyResolver.create_calls Option.none Option.none Option.none = [] := by
  have hfail : ∀ (all_vars : List (String × PyVal)) (bb : Option BOMService.Dims)
      (property_name : String) (cfg : Option String),
      (∀ cname, cfg = Option.some cname → cname ≠ "" →
        ∀ value, List.lookup cname all_vars = Option.some value →
          pyFloat value = Option.none) →
      PropertyResolver.resolve_property_value all_vars bb property_name cfg =
        (match bb with
         | Option.some dims =>
           if lowerStr property_name = "length" then Option.some dims.length
           else if lowerStr property_name = "width" then Option.some dims.width
           else if lowerStr property_name = "height" then Option.some dims.height
           else Option.none
         | Option.none => Option.none) := by
    intro all_vars bb property_name cfg hcfg
    unfold PropertyResolver.resolve_property_value
    rcases cfg with _ | cname
    · simp
    · by_cases hc : cname = ""
      · simp [hc]
      · rcases hlk : List.lookup cname all_vars with _ | value
        · simp [hc, hlk]
        · have := hcfg cname rfl hc value hlk
          simp [hc, hlk, this]
  refine ⟨?_, ?_, ?_, rfl⟩
  · intro all_vars bbox bbox' property_name cname value q hc hlk hq
    have heval : ∀ bb : Option BOMService.Dims,
        PropertyResolver.resolve_property_value all_vars bb property_name (Option.some cname) =
          Option.some q := by
      intro bb
      unfold PropertyResolver.resolve_property_value
      simp [hc, hlk, hq]
    exact ⟨heval bbox, (heval bbox).trans (heval bbox').symm⟩
  · intro all_vars dims property_name cfg hcfg
    simpa using hfail all_vars (Option.some dims) property_name cfg hcfg
  · intro all_vars property_name cfg hcfg
    simpa using hfail all_vars Option.none property_name cfg hcfg

/-- C2 witness: the three clauses at concrete inputs — a coercible
`PartLength` variable wins over the bounding box; without variables the
bounding-box width is returned; with neither source the result is
`None`. -/
theorem c2_resolver_fallback_order_witness :
    PropertyResolver.resolve_property_value [("PartLength", .num 42)]
        (Option.some ⟨100, 50, 25, 125000⟩) "Length" (Option.some "PartLength") =
      Option.some 42 ∧
    PropertyResolver.resolve_property_value []
        (Option.some ⟨100, 50, 25, 125000⟩) "Width" Option.none = Option.some 50 ∧
    PropertyResolver.resolve_property_value [] Option.none "Height" Option.none =
      Option.none := by
  refine ⟨?_, ?_, ?_⟩
  · exact (c2_resolver_fallback_order.1 [("PartLength", .num 42)]
      (Option.some ⟨100, 50, 25, 125000⟩) Option.none "Length" "PartLength" (.num 42) 42
      (by simp) rfl rfl).1
  · rw [c2_resolver_fallback_order.2.1 [] ⟨100, 50, 25, 125000⟩ "Width" Option.none
      (fun cname hc => by cases hc)]
    simp [lowerStr]
  · exact c2_resolver_fallback_order.2.2.1 [] "Height" Option.none
      (fun cname hc => by cases hc)

/-- C1: the claim (and the source's own docstrings) say updates are
matched to existing properties *by logical name* mapped to `propertyId`,
so that `updateProperties(partId, {Length: "10"})` replaces the Length
value.  The implementation matches the update keys directly against the
opaque `propertyId`s (`_build_property_map` maps each id to itself and is
never consulted), so a name-keyed update changes nothing: with the
Length/Material properties stored under the two ids from the source's own
docstring, the POSTed body keeps `"5"` and `"Steel"` unchanged — and the
call still reports success. -/
theorem c1_update_keyed_by_name_changes_nothing :
    MetadataService.update_part_metadata
      (Option.some (.dict [("items", .list [.dict
        [("href", .str "h"),
         ("properties", .list
           [.dict [("propertyId", .str "57f3fb8efa3416c06701d60d"), ("value", .str "5")],
            .dict [("propertyId", .str "57f3fb8efa3416c06701d60e"), ("value", .str "Steel")]])]])]))
      [("Length", "10")] true =
    (true, Option.some { items := [{ href := .str "h", properties :=
      [{ propertyId := .str "57f3fb8efa3416c06701d60d", value := .str "5" },
       { propertyId := .str "57f3fb8efa3416c06701d60e", value := .str "Steel" }] }] }) ∧
    PyVal.str "5" ≠ PyVal.str "10" := by
  constructor
  · simp [MetadataService.update_part_metadata, MetadataService._build_property_map,
      MetadataService._get_properties, MetadataService._build_update_body,
      MetadataService.merge_properties, MetadataService.merge_one,
      MetadataService.build_property_map_loop, dictGet, dictGetD, pyTruthy, List.lookup]
  · simp

/-- C9: when the GET of the part's current metadata answers "not found"
(`get_part_metadata` returned `None`), `update_part_metadata` returns
`False` and performs no POST, whatever the requested updates and
whatever the POST would have answered. -/
theorem c9_not_found_fails_without_post
    (property_updates : List (String × String)) (post_ok : Bool) :
    MetadataService.update_part_metadata Option.none property_updates post_ok =
      (false, Option.none) := rfl

/-- C10: whenever `_build_update_body` produces a body, that body has a
single item whose properties carry exactly the `propertyId`s of the
walked existing-properties list, in order and count — so a requested
update key with no matching existing property adds nothing, and the
merge can never create or drop a property. -/
theorem c10_merge_preserves_property_ids (md : PyVal)
    (property_updates : List (String × String)) (property_map : List (PyVal × PyVal))
    (body : MetadataService.PostBody)
    (h : MetadataService._build_update_body md property_updates property_map =
      Option.some body) :
    ∃ item, body.items = [item] ∧
      item.properties.map MetadataService.PostProp.propertyId =
        (MetadataService.existingProperties md).map MetadataService.propIdOf := by
  cases md with
  | dict kvs =>
    simp only [MetadataService._build_update_body] at h
    rcases hits : dictGetD kvs "items" (.list []) with _ | b | q | s | l | d <;>
      rw [hits] at h
    case list =>
      cases l with
      | nil => simp at h
      | cons current_item rest =>
        cases current_item with
        | dict ikvs =>
          simp only at h
          rcases htr : pyTruthy (dictGet ikvs "href") with _ | _
          · rw [htr] at h; simp at h
          · rw [htr] at h
            simp only [Bool.not_true, Bool.false_eq_true, if_false] at h
            rcases hprops : dictGetD ikvs "properties" (.list []) with _ | b2 | q2 | s2 | ps | d2 <;>
              rw [hprops] at h
            case list =>
              simp only at h
              rcases hm : MetadataService.merge_properties ps property_updates with _ | merged <;>
                rw [hm] at h
              · simp at h
              · simp only at h
                rcases hme : merged.isEmpty with _ | _ <;> rw [hme] at h
                · simp only [Bool.false_eq_true, if_false] at h
                  injection h with hbody
                  refine ⟨{ href := dictGet ikvs "href", properties := merged }, ?_, ?_⟩
                  · rw [← hbody]
                  · simp only [MetadataService.existingProperties, hits, hprops]
                    exact merge_properties_ids ps property_updates merged hm
                · simp at h
            all_goals simp at h
        | none => simp at h
        | bool b3 => simp at h
        | num q3 => simp at h
        | str s3 => simp at h
        | list l3 => simp at h
    all_goals simp at h
  | none => simp [MetadataService._build_update_body] at h
  | bool b => simp [MetadataService._build_update_body] at h
  | num q => simp [MetadataService._build_update_body] at h
  | str s => simp [MetadataService._build_update_body] at h
  | list l => simp [MetadataService._build_update_body] at h

/-- C10 witness: the frame property at a concrete successful build —
metadata with properties under ids `"a"`, `"b"` and an update hitting
only `"a"`. -/
theorem c10_merge_preserves_property_ids_witness :
    ∃ item,
      (MetadataService.PostBody.mk [{ href := PyVal.str "u", properties :=
        [{ propertyId := PyVal.str "a", value := PyVal.str "9" },
         { propertyId := PyVal.str "b", value := PyVal.str "2" }] }]).items = [item] ∧
      item.properties.map MetadataService.PostProp.propertyId =
        (MetadataService.existingProperties (.dict [("items", .list [.dict
          [("href", .str "u"),
           ("properties", .list
             [.dict [("propertyId", .str "a"), ("value", .str "1")],
              .dict [("propertyId", .str "b"), ("value", .str "2")]])]])])).map
          MetadataService.propIdOf :=
  c10_merge_preserves_property_ids _ [("a", "9")] [] _ rfl

